import Mathlib

/-!
Verification of the FaultAPI report service (src/index.js).

The JavaScript source is shallowly embedded: JS strings become `List Char`,
the filesystem-backed report store becomes an association list keyed by the
report id, and the three Express handlers become pure functions from a state
and a request to a response and a new state.  Nondeterministic inputs of the
source (`uuidv4()`, `Date.now()`, `Math.random()`, `new Date().toISOString()`)
are passed in as explicit parameters, and an unexpected I/O failure of the
`fs` layer is injected as an explicit `Option` parameter carrying the thrown
error's message.
-/

namespace FaultAPI

/-- Strings are modelled as lists of characters. -/
abbrev Str := List Char

/-- The literal prefix of the data-URI regular expression. -/
def dataPre : Str := ("data:").toList

/-- The literal separator of the data-URI regular expression. -/
def sepL : Str := (";base64,").toList

/-- The string produced by JS string interpolation of `undefined`. -/
def undefinedS : Str := ("undefined").toList

/-- The public prefix of stored upload references. -/
def uploadsDirS : Str := ("/uploads/").toList

/-- The message of the MalformedAttachment error thrown by `saveBase64Image`. -/
def invalidFormatS : Str := ("Invalid base64 string format").toList

/-- In a JS regex without the `s` flag, `.` matches any character except the
four line terminators. -/
def jsDotOk (c : Char) : Bool :=
  !(c == Char.ofNat 10 || c == Char.ofNat 13 ||
    c == Char.ofNat 0x2028 || c == Char.ofNat 0x2029)

/-- The separator `;base64,` occurs in `r` at position `i`. -/
def isSepAt (r : Str) (i : Nat) : Bool := sepL.isPrefixOf (List.drop i r)

/-- Largest position `i ≤ n`, `i ≥ 1`, at which the separator occurs with a
nonempty remainder after it; this is the split chosen by the greedy group
`(.+)` of the regex `^data:(.+);base64,(.+)$`. -/
def lastSepFrom (r : Str) : Nat → Option Nat
  | 0 => none
  | i + 1 =>
    if isSepAt r (i + 1) && decide (i + 1 + 8 < r.length) then some (i + 1)
    else lastSepFrom r i

/-- Result of `base64String.match(/^data:(.+);base64,(.+)$/)`: the mime-type
group and the payload group, or `none` when the string does not match. -/
def dataUriMatch (s : Str) : Option (Str × Str) :=
  if dataPre.isPrefixOf s && s.all jsDotOk then
    match lastSepFrom (List.drop 5 s) (List.drop 5 s).length with
    | none => none
    | some i => some (List.take i (List.drop 5 s), List.drop (i + 8) (List.drop 5 s))
  else none

/-- Specification-level statement that `s` matches the data-URI pattern
`data:<mimeType>;base64,<payload>` with nonempty groups. -/
def dataUriPattern (s : Str) : Prop :=
  ∃ m p, m ≠ [] ∧ p ≠ [] ∧ m.all jsDotOk ∧ p.all jsDotOk ∧
    s = dataPre ++ m ++ sepL ++ p

/-- Result of splitting a string at every occurrence of `c`, as JS
`String.prototype.split` does (may produce empty pieces, never returns an
empty list). -/
def jsSplit (c : Char) : Str → List Str
  | [] => [[]]
  | x :: xs =>
    match jsSplit c xs with
    | [] => [[]]
    | h :: t => if x = c then [] :: h :: t else (x :: h) :: t

/-- Value of a character in the base64 alphabet, `none` for characters the
decoder ignores. -/
def b64Val (c : Char) : Option Nat :=
  if 'A' ≤ c ∧ c ≤ 'Z' then some (c.toNat - 65)
  else if 'a' ≤ c ∧ c ≤ 'z' then some (c.toNat - 97 + 26)
  else if '0' ≤ c ∧ c ≤ '9' then some (c.toNat - 48 + 52)
  else if c = '+' then some 62
  else if c = '/' then some 63
  else none

/-- Reassemble 6-bit values into bytes, three bytes per group of four, with
the usual truncation of a trailing group. -/
def b64Groups : List Nat → List Nat
  | a :: b :: c :: d :: rest =>
    (a * 4 + b / 16) :: ((b % 16) * 16 + c / 4) :: ((c % 4) * 64 + d) :: b64Groups rest
  | [a, b] => [a * 4 + b / 16]
  | [a, b, c] => [a * 4 + b / 16, (b % 16) * 16 + c / 4]
  | _ => []

/-- Model of Node's `Buffer.from(data, 'base64')`: a total function that
ignores characters outside the base64 alphabet and never fails, so a
malformed payload yields garbage bytes rather than an error. -/
def jsBase64Decode (s : Str) : List Nat := b64Groups (s.filterMap b64Val)

/-- Everything `saveBase64Image` derives from its input and writes or
returns: the matched mime type and payload, the synthesized extension and
filename, the decoded bytes written to the file, and the returned URL. -/
structure SavedImage where
  mimeType : Str
  extension : Str
  payload : Str
  bytes : List Nat
  filename : Str
  url : Str
deriving DecidableEq

/-- Embedding of `saveBase64Image(base64String, prefix)`.  `now` stands for
`Date.now()` and `rand` for `Math.floor(Math.random() * 10000)`; `pfx` is
the `prefix` argument.  The file write is represented by the `bytes` field
of the result. -/
def saveBase64Image (now rand : Nat) (pfx : Str) (s : Str) : Except Str SavedImage :=
  match dataUriMatch s with
  | none => Except.error invalidFormatS
  | some mp =>
    Except.ok
      { mimeType := mp.1
        extension := ((jsSplit '/' mp.1).get? 1).getD undefinedS
        payload := mp.2
        bytes := jsBase64Decode mp.2
        filename := pfx ++ '-' :: (toString now).toList ++ '-' :: (toString rand).toList
          ++ '.' :: ((jsSplit '/' mp.1).get? 1).getD undefinedS
        url := uploadsDirS ++ (pfx ++ '-' :: (toString now).toList ++ '-' :: (toString rand).toList
          ++ '.' :: ((jsSplit '/' mp.1).get? 1).getD undefinedS) }

/-- Message strings of src/index.js. -/
def ownerNameErrS : Str := ("ownerName inválido").toList

def phoneErrS : Str := ("phoneNumber requerido").toList

def plateErrS : Str := ("licensePlate inválido").toList

def faultErrS : Str := ("faultDescription inválido").toList

def ownerSigErrS : Str := ("ownerSignature requerida").toList

def techSigErrS : Str := ("technicianSignature requerida").toList

def pendingS : Str := ("pending").toList

def attendedS : Str := ("attended").toList

def invalidStatusS : Str := ("Estado inválido").toList

def notFoundMsgS : Str := ("Reporte no encontrado").toList

def errReadingS : Str := ("Error reading reports").toList

def errUpdatingS : Str := ("Error actualizando el estado del reporte").toList

def photoPfxS : Str := ("photo").toList

def ownerSignPfxS : Str := ("ownerSign").toList

def techSignPfxS : Str := ("techSign").toList

/-- JS values, as far as the `location` field needs them. -/
inductive JSValue where
  | undef
  | null
  | bool (b : Bool)
  | num (n : Int)
  | str (s : Str)
deriving DecidableEq

/-- JS truthiness for the modelled values. -/
def jsTruthy : JSValue → Bool
  | JSValue.undef => false
  | JSValue.null => false
  | JSValue.bool b => b
  | JSValue.num n => decide (n ≠ 0)
  | JSValue.str s => decide (s ≠ [])

/-- Body of a POST /reports request.  Absent fields are `none`; a `photos`
value that is not an array is modelled as `none` since `Array.isArray`
guards its only use. -/
structure Submission where
  ownerName : Option Str
  phoneNumber : Option Str
  licensePlate : Option Str
  faultDescription : Option Str
  location : JSValue
  photos : Option (List Str)
  ownerSignature : Option Str
  technicianSignature : Option Str
deriving DecidableEq

/-- A persisted report record, one JSON file under the reports directory.
`status` is `Option` because a legacy record may lack the field. -/
structure StoredReport where
  id : Str
  ownerName : Str
  phoneNumber : Str
  licensePlate : Str
  faultDescription : Str
  location : JSValue
  photos : List Str
  ownerSignature : Str
  technicianSignature : Str
  createdAt : Str
  status : Option Str
deriving DecidableEq

/-- Test of `!ownerName || ownerName.length < 2`. -/
def failsOwnerName : Option Str → Bool
  | none => true
  | some s => s.isEmpty || decide (s.length < 2)

/-- Test of `!phoneNumber`. -/
def failsPhoneNumber : Option Str → Bool
  | none => true
  | some s => s.isEmpty

/-- Test of `!licensePlate || licensePlate.length < 3`. -/
def failsLicensePlate : Option Str → Bool
  | none => true
  | some s => s.isEmpty || decide (s.length < 3)

/-- Test of `!faultDescription || faultDescription.length < 10`. -/
def failsFaultDescription : Option Str → Bool
  | none => true
  | some s => s.isEmpty || decide (s.length < 10)

/-- Test of `!ownerSignature`. -/
def failsOwnerSignature : Option Str → Bool
  | none => true
  | some s => s.isEmpty

/-- Test of `!technicianSignature`. -/
def failsTechnicianSignature : Option Str → Bool
  | none => true
  | some s => s.isEmpty

/-- The validation chain of the POST handler: the first failing rule's
error message, or `none` when every rule passes. -/
def validate (sub : Submission) : Option Str :=
  if failsOwnerName sub.ownerName then some ownerNameErrS
  else if failsPhoneNumber sub.phoneNumber then some phoneErrS
  else if failsLicensePlate sub.licensePlate then some plateErrS
  else if failsFaultDescription sub.faultDescription then some faultErrS
  else if failsOwnerSignature sub.ownerSignature then some ownerSigErrS
  else if failsTechnicianSignature sub.technicianSignature then some techSigErrS
  else none

/-- Response of POST /reports with its HTTP status code. -/
inductive CreateRes where
  | ok (reportId : Str)
  | err (msg : Str)
deriving DecidableEq

def CreateRes.code : CreateRes → Nat
  | CreateRes.ok _ => 201
  | CreateRes.err _ => 400

/-- Response of GET /reports with its HTTP status code. -/
inductive GetRes where
  | ok (reports : List StoredReport)
  | err (msg : Str)
deriving DecidableEq

def GetRes.code : GetRes → Nat
  | GetRes.ok _ => 200
  | GetRes.err _ => 500

/-- Response of PUT /reports/:id/status with its HTTP status code. -/
inductive PutRes where
  | ok (report : StoredReport)
  | invalid (msg : Str)
  | notFound (msg : Str)
  | serverErr (msg : Str)
deriving DecidableEq

def PutRes.code : PutRes → Nat
  | PutRes.ok _ => 200
  | PutRes.invalid _ => 400
  | PutRes.notFound _ => 404
  | PutRes.serverErr _ => 500

/-- The reports directory: one record per file, keyed by the report id. -/
abbrev ReportsState := List (Str × StoredReport)

/-- The `photos` list actually iterated: `Array.isArray(photos)` guards the
loop, anything else means no photos. -/
def photosOf (sub : Submission) : List Str := sub.photos.getD []

/-- The photo-saving loop of the POST handler.  `env k` supplies the
`Date.now()` and `Math.random()` values of the `k`-th attachment saved. -/
def savePhotos (env : Nat → Nat × Nat) : Nat → List Str → Except Str (List SavedImage)
  | _, [] => Except.ok []
  | k, ph :: rest =>
    match saveBase64Image (env k).1 (env k).2 photoPfxS ph with
    | Except.error e => Except.error e
    | Except.ok img =>
      match savePhotos env (k + 1) rest with
      | Except.error e => Except.error e
      | Except.ok imgs => Except.ok (img :: imgs)

/-- The `reportData` object literal built by the POST handler. -/
def mkReport (sub : Submission) (newId createdAt : Str) (imgs : List SavedImage)
    (oimg timg : SavedImage) : StoredReport :=
  { id := newId
    ownerName := sub.ownerName.getD []
    phoneNumber := sub.phoneNumber.getD []
    licensePlate := sub.licensePlate.getD []
    faultDescription := sub.faultDescription.getD []
    location := if jsTruthy sub.location then sub.location else JSValue.null
    photos := imgs.map SavedImage.url
    ownerSignature := oimg.url
    technicianSignature := timg.url
    createdAt := createdAt
    status := some pendingS }

/-- Embedding of the POST /reports handler.  `ioErr` injects an unexpected
`fs` failure (its message), thrown at the first filesystem touch
(`ensureDirs`); `newId` stands for `uuidv4()`, `createdAt` for
`new Date().toISOString()`, and `env` for the per-attachment `Date.now()`
and `Math.random()` draws. -/
def createReport (ioErr : Option Str) (reports : ReportsState) (sub : Submission)
    (newId createdAt : Str) (env : Nat → Nat × Nat) : CreateRes × ReportsState :=
  match validate sub with
  | some e => (CreateRes.err e, reports)
  | none =>
    match ioErr with
    | some m => (CreateRes.err m, reports)
    | none =>
      match savePhotos env 0 (photosOf sub) with
      | Except.error e => (CreateRes.err e, reports)
      | Except.ok imgs =>
        match saveBase64Image (env (photosOf sub).length).1 (env (photosOf sub).length).2
            ownerSignPfxS (sub.ownerSignature.getD []) with
        | Except.error e => (CreateRes.err e, reports)
        | Except.ok oimg =>
          match saveBase64Image (env ((photosOf sub).length + 1)).1
              (env ((photosOf sub).length + 1)).2
              techSignPfxS (sub.technicianSignature.getD []) with
          | Except.error e => (CreateRes.err e, reports)
          | Except.ok timg =>
            (CreateRes.ok newId,
             reports ++ [(newId, mkReport sub newId createdAt imgs oimg timg)])

/-- Read-time defaulting of `status`: `if (!report.status) report.status =
'pending'`. -/
def backfillStatus : Option Str → Str
  | none => pendingS
  | some s => if s.isEmpty then pendingS else s

/-- A record as the GET handler returns it. -/
def viewReport (r : StoredReport) : StoredReport :=
  { r with status := some (backfillStatus r.status) }

/-- Embedding of the GET /reports handler.  `ioErr` injects an unexpected
`fs` failure; the returned state is the reports directory after the
request, which the handler never writes. -/
def listReports (ioErr : Option Str) (reports : ReportsState) : GetRes × ReportsState :=
  match ioErr with
  | some _ => (GetRes.err errReadingS, reports)
  | none => (GetRes.ok (reports.map (fun kv => viewReport kv.2)), reports)

/-- Read of the record file named by `id`: the first (and in practice only)
entry stored under that key. -/
def findReport : ReportsState → Str → Option StoredReport
  | [], _ => none
  | (k, r) :: rest, id => if k = id then some r else findReport rest id

/-- Rewrite of one record file, leaving every other file alone. -/
def setReport (reports : ReportsState) (id : Str) (r : StoredReport) : ReportsState :=
  reports.map (fun kv => if kv.1 = id then (kv.1, r) else kv)

/-- Embedding of the PUT /reports/:id/status handler.  The allowed-status
check precedes the existence check, as in the source; `ioErr` injects an
unexpected `fs` failure at the read/write stage (after the `fs.access`
existence probe). -/
def updateStatus (ioErr : Option Str) (reports : ReportsState) (id : Str)
    (status : Option Str) : PutRes × ReportsState :=
  match status with
  | none => (PutRes.invalid invalidStatusS, reports)
  | some s =>
    if s = pendingS ∨ s = attendedS then
      match findReport reports id with
      | none => (PutRes.notFound notFoundMsgS, reports)
      | some r =>
        match ioErr with
        | some _ => (PutRes.serverErr errUpdatingS, reports)
        | none =>
          (PutRes.ok { r with status := some s },
           setReport reports id { r with status := some s })
    else (PutRes.invalid invalidStatusS, reports)

/-- Specification-side statement of one required-field rule: the field is a
present string of length at least `n` (for `n = 1`, present and
non-empty). -/
def specFieldRule (o : Option Str) (n : Nat) : Bool :=
  match o with
  | none => false
  | some s => decide (n ≤ s.length)

/-- Specification-side statement of the whole required-field rule set of
section 4.2 of the spec. -/
def specValidSubmission (sub : Submission) : Bool :=
  specFieldRule sub.ownerName 2 && specFieldRule sub.phoneNumber 1 &&
  specFieldRule sub.licensePlate 3 && specFieldRule sub.faultDescription 10 &&
  specFieldRule sub.ownerSignature 1 && specFieldRule sub.technicianSignature 1

/-- Stored statuses producible through the API: absent (legacy) or one of
the two allowed values. -/
def GoodStatus (st : Option Str) : Prop :=
  st = none ∨ st = some pendingS ∨ st = some attendedS

/-- Invariant of the reports directory. -/
def GoodState (reports : ReportsState) : Prop :=
  ∀ kv ∈ reports, GoodStatus kv.2.status

/-- Concrete data-URI of a photo whose payload decodes to no bytes. -/
def photoUriS : Str := ("data:image/png;base64,.").toList

/-- Concrete data-URI of a signature. -/
def sigUriS : Str := ("data:image/png;base64,AA").toList

/-- A valid submission with one photo. -/
def subA : Submission :=
  { ownerName := some (("Juan Perez").toList)
    phoneNumber := some (("5551234").toList)
    licensePlate := some (("ABC123").toList)
    faultDescription := some (("el motor no enciende").toList)
    location := JSValue.str (("CDMX").toList)
    photos := some [photoUriS]
    ownerSignature := some sigUriS
    technicianSignature := some sigUriS }

/-- A valid submission with no photos and a falsy (zero) location. -/
def subB : Submission :=
  { subA with photos := none, location := JSValue.num 0 }

/-- The environment that draws 0 for every timestamp and random value. -/
def envZ : Nat → Nat × Nat := fun _ => (0, 0)

/-- The file `saveBase64Image` produces for `photoUriS` under `envZ`. -/
def imgPhotoFix : SavedImage :=
  { mimeType := ("image/png").toList
    extension := ("png").toList
    payload := (".").toList
    bytes := []
    filename := ("photo-0-0.png").toList
    url := ("/uploads/photo-0-0.png").toList }

/-- The file `saveBase64Image` produces for the owner signature under `envZ`. -/
def oimgFix : SavedImage :=
  { mimeType := ("image/png").toList
    extension := ("png").toList
    payload := ("AA").toList
    bytes := [0]
    filename := ("ownerSign-0-0.png").toList
    url := ("/uploads/ownerSign-0-0.png").toList }

/-- The file `saveBase64Image` produces for the technician signature under
`envZ`. -/
def timgFix : SavedImage :=
  { mimeType := ("image/png").toList
    extension := ("png").toList
    payload := ("AA").toList
    bytes := [0]
    filename := ("techSign-0-0.png").toList
    url := ("/uploads/techSign-0-0.png").toList }

/-- A concrete stored report in the pending state. -/
def rFix : StoredReport :=
  { id := ("r1").toList
    ownerName := ("Juan").toList
    phoneNumber := ("555").toList
    licensePlate := ("ABC12").toList
    faultDescription := ("falla de frenos grave").toList
    location := JSValue.null
    photos := []
    ownerSignature := ("/uploads/o.png").toList
    technicianSignature := ("/uploads/t.png").toList
    createdAt := ("2024-01-01T00:00:00.000Z").toList
    status := some pendingS }

/-- A raw I/O error message, as `fs` would throw it. -/
def eaccesMsgS : Str := ("EACCES: permission denied, mkdir").toList

theorem isPrefixOf_iff (l s : Str) : l.isPrefixOf s = true ↔ ∃ t, s = l ++ t := by
  induction l generalizing s with
  | nil =>
    simp [List.isPrefixOf]
  | cons c l ih =>
    cases s with
    | nil => simp [List.isPrefixOf]
    | cons d s =>
      simp only [List.isPrefixOf, Bool.and_eq_true, beq_iff_eq, ih,
        List.cons_append, List.cons.injEq]
      constructor
      · rintro ⟨h1, t, h2⟩
        exact ⟨t, h1.symm, h2⟩
      · rintro ⟨t, h1, h2⟩
        exact ⟨h1.symm, t, h2⟩

theorem lastSepFrom_some (r : Str) (n i : Nat)
    (h : lastSepFrom r n = some i) :
    1 ≤ i ∧ isSepAt r i = true ∧ i + 8 < r.length := by
  induction n with
  | zero => simp [lastSepFrom] at h
  | succ k ih =>
    by_cases hc : (isSepAt r (k + 1) && decide (k + 1 + 8 < r.length)) = true
    · rw [lastSepFrom, if_pos hc] at h
      obtain ⟨h1, h2⟩ := Bool.and_eq_true_iff.mp hc
      cases h
      exact ⟨Nat.succ_le_succ (Nat.zero_le k), h1, of_decide_eq_true h2⟩
    · rw [lastSepFrom, if_neg hc] at h
      exact ih h

theorem lastSepFrom_isSome (r : Str) (n i : Nat)
    (h1 : 1 ≤ i) (h2 : i ≤ n) (h3 : isSepAt r i = true)
    (h4 : i + 8 < r.length) : (lastSepFrom r n).isSome = true := by
  induction n with
  | zero => omega
  | succ k ih =>
    by_cases hc : (isSepAt r (k + 1) && decide (k + 1 + 8 < r.length)) = true
    · rw [lastSepFrom, if_pos hc]; rfl
    · rw [lastSepFrom, if_neg hc]
      rcases Nat.lt_or_ge i (k + 1) with hlt | hge
      · exact ih (by omega)
      · have : i = k + 1 := by omega
        subst this
        exact absurd (Bool.and_eq_true_iff.mpr ⟨h3, decide_eq_true h4⟩) hc

theorem dataPre_all : dataPre.all jsDotOk = true := by decide

theorem sepL_all : sepL.all jsDotOk = true := by decide

theorem sepL_length : sepL.length = 8 := by decide

theorem dataPre_length : dataPre.length = 5 := by decide

/-- When the regex matches, the input string decomposes as
`data:<m>;base64,<p>` around the returned groups. -/
theorem dataUriMatch_some_spec (s m p : Str)
    (h : dataUriMatch s = some (m, p)) :
    m ≠ [] ∧ p ≠ [] ∧ m.all jsDotOk = true ∧ p.all jsDotOk = true ∧
    s = dataPre ++ m ++ sepL ++ p := by
  unfold dataUriMatch at h
  by_cases hc : (dataPre.isPrefixOf s && s.all jsDotOk) = true
  · rw [if_pos hc] at h
    obtain ⟨hpre, halls⟩ := Bool.and_eq_true_iff.mp hc
    obtain ⟨r0, hr0⟩ := (isPrefixOf_iff dataPre s).mp hpre
    have hdrop : List.drop 5 s = r0 := by
      rw [hr0, ← dataPre_length, List.drop_left]
    cases hls : lastSepFrom (List.drop 5 s) (List.drop 5 s).length with
    | none => rw [hls] at h; exact absurd h (by simp)
    | some i =>
      rw [hls] at h
      obtain ⟨hi1, hsep, hilen⟩ := lastSepFrom_some _ _ _ hls
      obtain ⟨t, ht⟩ := (isPrefixOf_iff sepL (List.drop i (List.drop 5 s))).mp hsep
      have hmp : m = List.take i (List.drop 5 s) ∧ p = List.drop (i + 8) (List.drop 5 s) := by
        have := h
        simp only [Option.some.injEq, Prod.mk.injEq] at this
        exact ⟨this.1.symm, this.2.symm⟩
      obtain ⟨hm, hp⟩ := hmp
      have hpt : p = t := by
        rw [hp, ← List.drop_drop, ht, ← sepL_length, List.drop_left]
      have hs : s = dataPre ++ m ++ sepL ++ p := by
        rw [hm, hpt]
        conv_lhs => rw [hr0]
        rw [← hdrop]
        have : List.take i (List.drop 5 s) ++ List.drop i (List.drop 5 s) =
            List.drop 5 s := List.take_append_drop ..
        rw [List.append_assoc, List.append_assoc, ← ht, this]
      have hall5 : (List.drop 5 s).all jsDotOk = true := by
        rw [hdrop]
        rw [hr0, List.all_append, Bool.and_eq_true_iff] at halls
        exact halls.2
      have hlm : m.length = i := by
        rw [hm, List.length_take]; omega
      have hlp : 1 ≤ p.length := by
        rw [hp, List.length_drop]; omega
      refine ⟨?_, ?_, ?_, ?_, hs⟩
      · intro hnil
        rw [hnil] at hlm
        simp at hlm
        omega
      · intro hnil
        rw [hnil] at hlp
        simp at hlp
      · rw [hm]
        rw [List.all_eq_true] at hall5 ⊢
        intro x hx
        exact hall5 x (List.mem_of_mem_take hx)
      · rw [hp]
        rw [List.all_eq_true] at hall5 ⊢
        intro x hx
        exact hall5 x (List.mem_of_mem_drop hx)
  · rw [if_neg hc] at h
    exact absurd h (by simp)

/-- The regex matcher succeeds exactly on strings matching the data-URI
pattern. -/
theorem dataUriMatch_isSome_iff (s : Str) :
    (dataUriMatch s).isSome = true ↔ dataUriPattern s := by
  constructor
  · intro h
    cases hm : dataUriMatch s with
    | none => rw [hm] at h; simp at h
    | some mp =>
      obtain ⟨m, p⟩ := mp
      obtain ⟨h1, h2, h3, h4, h5⟩ := dataUriMatch_some_spec s m p hm
      exact ⟨m, p, h1, h2, h3, h4, h5⟩
  · rintro ⟨m, p, hm, hp, hmall, hpall, hs⟩
    have hpre : dataPre.isPrefixOf s = true :=
      (isPrefixOf_iff dataPre s).mpr ⟨m ++ sepL ++ p, by rw [hs]; simp⟩
    have halls : s.all jsDotOk = true := by
      rw [hs]
      simp only [List.all_append, Bool.and_eq_true_iff]
      exact ⟨⟨⟨dataPre_all, hmall⟩, sepL_all⟩, hpall⟩
    have hdrop : List.drop 5 s = m ++ sepL ++ p := by
      rw [hs, ← dataPre_length]
      have : dataPre ++ m ++ sepL ++ p = dataPre ++ (m ++ sepL ++ p) := by simp
      rw [this, List.drop_left]
    have hsepAt : isSepAt (List.drop 5 s) m.length = true := by
      unfold isSepAt
      rw [hdrop, List.append_assoc, List.drop_left]
      exact (isPrefixOf_iff sepL (sepL ++ p)).mpr ⟨p, rfl⟩
    have hlen : (List.drop 5 s).length = m.length + 8 + p.length := by
      rw [hdrop]
      simp [sepL_length]
      omega
    have hm1 : 1 ≤ m.length := List.length_pos.mpr hm
    have hp1 : 1 ≤ p.length := List.length_pos.mpr hp
    have hsome := lastSepFrom_isSome (List.drop 5 s) (List.drop 5 s).length
      m.length hm1 (by omega) hsepAt (by omega)
    obtain ⟨i, hi⟩ := Option.isSome_iff_exists.mp hsome
    unfold dataUriMatch
    rw [if_pos (Bool.and_eq_true_iff.mpr ⟨hpre, halls⟩), hi]
    rfl

theorem jsSplit_ne_nil (c : Char) (l : Str) : jsSplit c l ≠ [] := by
  cases l with
  | nil => simp [jsSplit]
  | cons x xs =>
    simp only [jsSplit]
    cases jsSplit c xs with
    | nil => simp
    | cons h t => by_cases hx : x = c <;> simp [hx]

theorem jsSplit_no_sep (c : Char) (l : Str) (h : c ∉ l) : jsSplit c l = [l] := by
  induction l with
  | nil => simp [jsSplit]
  | cons x xs ih =>
    simp only [List.mem_cons, not_or] at h
    obtain ⟨h1, h2⟩ := h
    have hx : ¬ x = c := fun he => h1 he.symm
    simp only [jsSplit, ih h2]
    simp [hx]

theorem jsSplit_sep (c : Char) (a b : Str) (ha : c ∉ a) :
    jsSplit c (a ++ c :: b) = a :: jsSplit c b := by
  induction a with
  | nil =>
    simp only [List.nil_append, jsSplit]
    cases hsb : jsSplit c b with
    | nil => exact absurd hsb (jsSplit_ne_nil c b)
    | cons h t => simp
  | cons x a ih =>
    simp only [List.mem_cons, not_or] at ha
    obtain ⟨h1, h2⟩ := ha
    have hx : ¬ x = c := fun he => h1 he.symm
    have step : jsSplit c ((x :: a) ++ c :: b) =
        match jsSplit c (a ++ c :: b) with
        | [] => [[]]
        | h :: t => if x = c then [] :: h :: t else (x :: h) :: t := rfl
    rw [step, ih h2]
    simp [hx]

theorem jsSplit_two (c : Char) (a b : Str) (ha : c ∉ a) (hb : c ∉ b) :
    jsSplit c (a ++ c :: b) = [a, b] := by
  rw [jsSplit_sep c a b ha, jsSplit_no_sep c b hb]

theorem saveBase64Image_error_iff (now rand : Nat) (pfx s : Str) :
    (∃ e, saveBase64Image now rand pfx s = Except.error e) ↔ ¬ dataUriPattern s := by
  unfold saveBase64Image
  cases hm : dataUriMatch s with
  | none =>
    constructor
    · intro _
      rw [← dataUriMatch_isSome_iff, hm]
      simp
    · intro _
      exact ⟨invalidFormatS, rfl⟩
  | some mp =>
    constructor
    · rintro ⟨e, he⟩
      simp at he
    · intro hnp
      exact absurd ((dataUriMatch_isSome_iff s).mp (by rw [hm]; rfl)) hnp

theorem saveBase64Image_error_msg (now rand : Nat) (pfx s e : Str)
    (h : saveBase64Image now rand pfx s = Except.error e) : e = invalidFormatS := by
  unfold saveBase64Image at h
  cases hm : dataUriMatch s with
  | none =>
    rw [hm] at h
    simp only [Except.error.injEq] at h
    exact h.symm
  | some mp =>
    rw [hm] at h
    simp at h

theorem saveBase64Image_ok_of_pattern (now rand : Nat) (pfx s : Str)
    (h : dataUriPattern s) :
    ∃ r, saveBase64Image now rand pfx s = Except.ok r ∧
      r.bytes = jsBase64Decode r.payload := by
  have hsome := (dataUriMatch_isSome_iff s).mpr h
  obtain ⟨mp, hmp⟩ := Option.isSome_iff_exists.mp hsome
  unfold saveBase64Image
  rw [hmp]
  exact ⟨_, rfl, rfl⟩

theorem saveBase64Image_ok_pattern (now rand : Nat) (pfx s : Str) (r : SavedImage)
    (h : saveBase64Image now rand pfx s = Except.ok r) : dataUriPattern s := by
  rw [← dataUriMatch_isSome_iff]
  unfold saveBase64Image at h
  cases hm : dataUriMatch s with
  | none => rw [hm] at h; simp at h
  | some mp => rfl

theorem saveBase64Image_fields (now rand : Nat) (pfx s m p : Str) (r : SavedImage)
    (hm : dataUriMatch s = some (m, p))
    (h : saveBase64Image now rand pfx s = Except.ok r) :
    r.mimeType = m ∧ r.payload = p ∧
    r.extension = ((jsSplit '/' m).get? 1).getD undefinedS ∧
    r.bytes = jsBase64Decode p ∧
    r.filename = pfx ++ '-' :: (toString now).toList ++ '-' :: (toString rand).toList
      ++ '.' :: r.extension ∧
    r.url = uploadsDirS ++ r.filename := by
  unfold saveBase64Image at h
  rw [hm] at h
  simp only [Except.ok.injEq] at h
  rw [← h]
  exact ⟨rfl, rfl, rfl, rfl, rfl, rfl⟩

theorem savePhotos_ok_length (env : Nat → Nat × Nat) (k : Nat) (phs : List Str)
    (imgs : List SavedImage) (h : savePhotos env k phs = Except.ok imgs) :
    imgs.length = phs.length := by
  induction phs generalizing k imgs with
  | nil =>
    simp only [savePhotos, Except.ok.injEq] at h
    rw [← h]
    rfl
  | cons ph rest ih =>
    simp only [savePhotos] at h
    cases h1 : saveBase64Image (env k).1 (env k).2 photoPfxS ph with
    | error e => rw [h1] at h; simp at h
    | ok img =>
      rw [h1] at h
      cases h2 : savePhotos env (k + 1) rest with
      | error e => rw [h2] at h; simp at h
      | ok imgs2 =>
        rw [h2] at h
        simp only [Except.ok.injEq] at h
        rw [← h]
        simp [ih (k + 1) imgs2 h2]

theorem savePhotos_get (env : Nat → Nat × Nat) (k : Nat) (phs : List Str)
    (imgs : List SavedImage) (h : savePhotos env k phs = Except.ok imgs) :
    ∀ i (hj : i < phs.length) (hi : i < imgs.length),
      saveBase64Image (env (k + i)).1 (env (k + i)).2 photoPfxS (phs.get ⟨i, hj⟩) =
        Except.ok (imgs.get ⟨i, hi⟩) := by
  induction phs generalizing k imgs with
  | nil => intro i hj; simp at hj
  | cons ph rest ih =>
    intro i hj hi
    simp only [savePhotos] at h
    cases h1 : saveBase64Image (env k).1 (env k).2 photoPfxS ph with
    | error e => rw [h1] at h; simp at h
    | ok img =>
      rw [h1] at h
      cases h2 : savePhotos env (k + 1) rest with
      | error e => rw [h2] at h; simp at h
      | ok imgs2 =>
        rw [h2] at h
        simp only [Except.ok.injEq] at h
        subst h
        cases i with
        | zero =>
          simpa using h1
        | succ j =>
          have hk : k + (j + 1) = (k + 1) + j := by omega
          rw [hk]
          have hj2 : j < rest.length := by simpa using hj
          have hi2 : j < imgs2.length := by simpa using hi
          simpa using ih (k + 1) imgs2 h2 j hj2 hi2

theorem savePhotos_all_pattern (env : Nat → Nat × Nat) (k : Nat) (phs : List Str)
    (imgs : List SavedImage) (h : savePhotos env k phs = Except.ok imgs) :
    ∀ ph ∈ phs, dataUriPattern ph := by
  induction phs generalizing k imgs with
  | nil => intro ph hph; simp at hph
  | cons ph0 rest ih =>
    intro ph hph
    simp only [savePhotos] at h
    cases h1 : saveBase64Image (env k).1 (env k).2 photoPfxS ph0 with
    | error e => rw [h1] at h; simp at h
    | ok img =>
      rw [h1] at h
      cases h2 : savePhotos env (k + 1) rest with
      | error e => rw [h2] at h; simp at h
      | ok imgs2 =>
        rcases List.mem_cons.mp hph with he | hmem
        · subst he
          exact saveBase64Image_ok_pattern (env k).1 (env k).2 photoPfxS ph img h1
        · exact ih (k + 1) imgs2 h2 ph hmem

theorem savePhotos_ok_of_all (env : Nat → Nat × Nat) (k : Nat) (phs : List Str)
    (h : ∀ ph ∈ phs, dataUriPattern ph) :
    ∃ imgs, savePhotos env k phs = Except.ok imgs := by
  induction phs generalizing k with
  | nil => exact ⟨[], rfl⟩
  | cons ph rest ih =>
    obtain ⟨img, himg, -⟩ := saveBase64Image_ok_of_pattern (env k).1 (env k).2 photoPfxS ph
      (h ph (List.mem_cons_self ph rest))
    obtain ⟨imgs, himgs⟩ := ih (k + 1) (fun q hq => h q (List.mem_cons_of_mem ph hq))
    refine ⟨img :: imgs, ?_⟩
    simp only [savePhotos]
    rw [himg, himgs]

theorem findReport_append_none (l1 l2 : ReportsState) (k : Str)
    (h : findReport l1 k = none) :
    findReport (l1 ++ l2) k = findReport l2 k := by
  induction l1 with
  | nil => rfl
  | cons kv rest ih =>
    obtain ⟨a, b⟩ := kv
    by_cases ha : a = k
    · simp only [findReport, if_pos ha] at h
      cases h
    · simp only [List.cons_append, findReport, if_neg ha] at h ⊢
      exact ih h

theorem findReport_cons_self (rest : ReportsState) (k : Str) (r : StoredReport) :
    findReport ((k, r) :: rest) k = some r := by
  simp [findReport]

theorem setReport_cons (a : Str) (b : StoredReport) (rest : ReportsState)
    (id : Str) (r' : StoredReport) :
    setReport ((a, b) :: rest) id r' =
      (if a = id then (a, r') else (a, b)) :: setReport rest id r' := by
  by_cases ha : a = id <;> simp [setReport, ha]

theorem findReport_set_self (reports : ReportsState) (id : Str) (r r' : StoredReport)
    (h : findReport reports id = some r) :
    findReport (setReport reports id r') id = some r' := by
  induction reports with
  | nil => simp [findReport] at h
  | cons kv rest ih =>
    obtain ⟨a, b⟩ := kv
    rw [setReport_cons]
    by_cases ha : a = id
    · subst ha
      rw [if_pos rfl]
      simp [findReport]
    · rw [if_neg ha]
      simp only [findReport, if_neg ha] at h ⊢
      exact ih h

theorem findReport_set_other (reports : ReportsState) (id k : Str) (r' : StoredReport)
    (h : k ≠ id) :
    findReport (setReport reports id r') k = findReport reports k := by
  induction reports with
  | nil => rfl
  | cons kv rest ih =>
    obtain ⟨a, b⟩ := kv
    rw [setReport_cons]
    by_cases ha : a = id
    · rw [if_pos ha]
      have hak : ¬ a = k := fun hk => h (hk.symm.trans ha)
      simp only [findReport]
      rw [if_neg hak, if_neg hak]
      exact ih
    · rw [if_neg ha]
      simp only [findReport]
      by_cases hak : a = k
      · rw [if_pos hak, if_pos hak]
      · rw [if_neg hak, if_neg hak]
        exact ih

theorem failsOwnerName_iff (o : Option Str) :
    failsOwnerName o = false ↔ specFieldRule o 2 = true := by
  cases o with
  | none => simp [failsOwnerName, specFieldRule]
  | some s =>
    cases s with
    | nil => simp [failsOwnerName, specFieldRule]
    | cons c cs =>
      simp [failsOwnerName, specFieldRule, List.isEmpty]

theorem failsPhoneNumber_iff (o : Option Str) :
    failsPhoneNumber o = false ↔ specFieldRule o 1 = true := by
  cases o with
  | none => simp [failsPhoneNumber, specFieldRule]
  | some s =>
    cases s with
    | nil => simp [failsPhoneNumber, specFieldRule]
    | cons c cs => simp [failsPhoneNumber, specFieldRule, List.isEmpty]

theorem failsLicensePlate_iff (o : Option Str) :
    failsLicensePlate o = false ↔ specFieldRule o 3 = true := by
  cases o with
  | none => simp [failsLicensePlate, specFieldRule]
  | some s =>
    cases s with
    | nil => simp [failsLicensePlate, specFieldRule]
    | cons c cs =>
      simp [failsLicensePlate, specFieldRule, List.isEmpty]

theorem failsFaultDescription_iff (o : Option Str) :
    failsFaultDescription o = false ↔ specFieldRule o 10 = true := by
  cases o with
  | none => simp [failsFaultDescription, specFieldRule]
  | some s =>
    cases s with
    | nil => simp [failsFaultDescription, specFieldRule]
    | cons c cs =>
      simp [failsFaultDescription, specFieldRule, List.isEmpty]

theorem failsOwnerSignature_iff (o : Option Str) :
    failsOwnerSignature o = false ↔ specFieldRule o 1 = true := by
  cases o with
  | none => simp [failsOwnerSignature, specFieldRule]
  | some s =>
    cases s with
    | nil => simp [failsOwnerSignature, specFieldRule]
    | cons c cs => simp [failsOwnerSignature, specFieldRule, List.isEmpty]

theorem failsTechnicianSignature_iff (o : Option Str) :
    failsTechnicianSignature o = false ↔ specFieldRule o 1 = true := by
  cases o with
  | none => simp [failsTechnicianSignature, specFieldRule]
  | some s =>
    cases s with
    | nil => simp [failsTechnicianSignature, specFieldRule]
    | cons c cs => simp [failsTechnicianSignature, specFieldRule, List.isEmpty]

theorem validate_none_fails (sub : Submission) :
    validate sub = none ↔
      (failsOwnerName sub.ownerName = false ∧
       failsPhoneNumber sub.phoneNumber = false ∧
       failsLicensePlate sub.licensePlate = false ∧
       failsFaultDescription sub.faultDescription = false ∧
       failsOwnerSignature sub.ownerSignature = false ∧
       failsTechnicianSignature sub.technicianSignature = false) := by
  unfold validate
  cases h1 : failsOwnerName sub.ownerName <;>
  cases h2 : failsPhoneNumber sub.phoneNumber <;>
  cases h3 : failsLicensePlate sub.licensePlate <;>
  cases h4 : failsFaultDescription sub.faultDescription <;>
  cases h5 : failsOwnerSignature sub.ownerSignature <;>
  cases h6 : failsTechnicianSignature sub.technicianSignature <;>
  simp

theorem validate_eq_none_iff (sub : Submission) :
    validate sub = none ↔ specValidSubmission sub = true := by
  rw [validate_none_fails, specValidSubmission,
    failsOwnerName_iff, failsPhoneNumber_iff, failsLicensePlate_iff,
    failsFaultDescription_iff, failsOwnerSignature_iff, failsTechnicianSignature_iff]
  simp [Bool.and_eq_true_iff, and_assoc]

theorem validate_none_isSome (sub : Submission) (h : validate sub = none) :
    sub.ownerName = some (sub.ownerName.getD []) ∧
    sub.phoneNumber = some (sub.phoneNumber.getD []) ∧
    sub.licensePlate = some (sub.licensePlate.getD []) ∧
    sub.faultDescription = some (sub.faultDescription.getD []) ∧
    sub.ownerSignature = some (sub.ownerSignature.getD []) ∧
    sub.technicianSignature = some (sub.technicianSignature.getD []) := by
  obtain ⟨h1, h2, h3, h4, h5, h6⟩ := (validate_none_fails sub).mp h
  refine ⟨?_, ?_, ?_, ?_, ?_, ?_⟩
  · cases ho : sub.ownerName with
    | none => rw [ho] at h1; simp [failsOwnerName] at h1
    | some s => rfl
  · cases ho : sub.phoneNumber with
    | none => rw [ho] at h2; simp [failsPhoneNumber] at h2
    | some s => rfl
  · cases ho : sub.licensePlate with
    | none => rw [ho] at h3; simp [failsLicensePlate] at h3
    | some s => rfl
  · cases ho : sub.faultDescription with
    | none => rw [ho] at h4; simp [failsFaultDescription] at h4
    | some s => rfl
  · cases ho : sub.ownerSignature with
    | none => rw [ho] at h5; simp [failsOwnerSignature] at h5
    | some s => rfl
  · cases ho : sub.technicianSignature with
    | none => rw [ho] at h6; simp [failsTechnicianSignature] at h6
    | some s => rfl

theorem createReport_ok_eq (reports : ReportsState) (sub : Submission)
    (newId createdAt : Str) (env : Nat → Nat × Nat) (imgs : List SavedImage)
    (oimg timg : SavedImage)
    (hv : validate sub = none)
    (hph : savePhotos env 0 (photosOf sub) = Except.ok imgs)
    (ho : saveBase64Image (env (photosOf sub).length).1 (env (photosOf sub).length).2
        ownerSignPfxS (sub.ownerSignature.getD []) = Except.ok oimg)
    (ht : saveBase64Image (env ((photosOf sub).length + 1)).1
        (env ((photosOf sub).length + 1)).2
        techSignPfxS (sub.technicianSignature.getD []) = Except.ok timg) :
    createReport none reports sub newId createdAt env =
      (CreateRes.ok newId,
       reports ++ [(newId, mkReport sub newId createdAt imgs oimg timg)]) := by
  unfold createReport
  rw [hv, hph, ho, ht]

theorem createReport_err_of_validate (ioErr : Option Str) (reports : ReportsState)
    (sub : Submission) (newId createdAt : Str) (env : Nat → Nat × Nat) (e : Str)
    (hv : validate sub = some e) :
    createReport ioErr reports sub newId createdAt env = (CreateRes.err e, reports) := by
  unfold createReport
  rw [hv]

theorem backfillStatus_good (st : Option Str) (h : GoodStatus st) :
    backfillStatus st = pendingS ∨ backfillStatus st = attendedS := by
  rcases h with h | h | h <;> subst h
  · left; rfl
  · left; decide
  · right; decide

theorem findReport_mem (l : ReportsState) (k : Str) (r : StoredReport)
    (h : findReport l k = some r) : (k, r) ∈ l := by
  induction l with
  | nil => simp [findReport] at h
  | cons kv rest ih =>
    obtain ⟨a, b⟩ := kv
    by_cases ha : a = k
    · subst ha
      have h2 : some b = some r := by simpa [findReport] using h
      have h3 : b = r := by injection h2
      subst h3
      exact List.mem_cons_self _ _
    · simp only [findReport, if_neg ha] at h
      exact List.mem_cons_of_mem _ (ih h)

theorem backfill_valid (s : Str) (h : s = pendingS ∨ s = attendedS) :
    backfillStatus (some s) = s := by
  rcases h with h | h <;> subst h <;> decide

/-- C9: for every data URI matching the pattern whose matched mime type
contains no slash (e.g. `data:foo;base64,AAAA`), the decoder does not fail:
the synthesized filename ends in the literal extension `undefined`, and the
file is still written (its bytes are the decoded payload) and referenced by
the returned URL. -/
theorem decoder_no_slash_mime_undefined_extension :
    ∀ (now rand : Nat) (pfx s m p : Str),
      dataUriMatch s = some (m, p) →
      '/' ∉ m →
      ∃ r, saveBase64Image now rand pfx s = Except.ok r ∧
        r.extension = undefinedS ∧
        r.filename = pfx ++ '-' :: (toString now).toList ++ '-' ::
          (toString rand).toList ++ '.' :: undefinedS ∧
        (∃ pre, r.filename = pre ++ '.' :: undefinedS) ∧
        r.bytes = jsBase64Decode r.payload ∧
        r.url = uploadsDirS ++ r.filename := by
  intro now rand pfx s m p hm hns
  obtain ⟨r, hr, hbytes⟩ := saveBase64Image_ok_of_pattern now rand pfx s
    ((dataUriMatch_isSome_iff s).mp (by rw [hm]; rfl))
  obtain ⟨hmime, hpay, hext0, hbytes0, hfile, hurl⟩ :=
    saveBase64Image_fields now rand pfx s m p r hm hr
  have hext : r.extension = undefinedS := by
    rw [hext0, jsSplit_no_sep '/' m hns]
    rfl
  refine ⟨r, hr, hext, ?_, ?_, hbytes, hurl⟩
  · rw [hfile, hext]
  · refine ⟨pfx ++ '-' :: (toString now).toList ++ '-' :: (toString rand).toList, ?_⟩
    rw [hfile, hext]

/-- C9 witness: the decoder applied to `data:foo;base64,AAAA` with the
prefix `img`. -/
theorem decoder_no_slash_mime_undefined_extension_witness :
    ∃ r, saveBase64Image 0 0 (("img").toList) (("data:foo;base64,AAAA").toList) =
        Except.ok r ∧
      r.extension = undefinedS ∧
      r.filename = ("img").toList ++ '-' :: (toString 0).toList ++ '-' ::
        (toString 0).toList ++ '.' :: undefinedS ∧
      (∃ pre, r.filename = pre ++ '.' :: undefinedS) ∧
      r.bytes = jsBase64Decode r.payload ∧
      r.url = uploadsDirS ++ r.filename :=
  decoder_no_slash_mime_undefined_extension 0 0 (("img").toList)
    (("data:foo;base64,AAAA").toList) (("foo").toList) (("AAAA").toList)
    (by decide) (by decide)

/-- C4: the decoder fails (always with the MalformedAttachment message)
exactly on inputs not matching `data:<mimeType>;base64,<payload>`; during
create any attachment failing the pattern makes the response a 400 with the
reports directory unchanged; and on success the text after the slash of the
mime type becomes the stored extension verbatim, with no check that it is a
known image type. -/
theorem decoder_malformed_iff_and_extension_verbatim :
    (∀ now rand : Nat, ∀ pfx s : Str,
      ((∃ e, saveBase64Image now rand pfx s = Except.error e) ↔ ¬ dataUriPattern s)) ∧
    (∀ now rand : Nat, ∀ pfx s e : Str,
      saveBase64Image now rand pfx s = Except.error e → e = invalidFormatS) ∧
    (∀ (reports : ReportsState) (sub : Submission) (newId createdAt : Str)
      (env : Nat → Nat × Nat),
      validate sub = none →
      ((∃ ph ∈ photosOf sub, ¬ dataUriPattern ph) ∨
        ¬ dataUriPattern (sub.ownerSignature.getD []) ∨
        ¬ dataUriPattern (sub.technicianSignature.getD [])) →
      ∃ e, createReport none reports sub newId createdAt env = (CreateRes.err e, reports) ∧
        (CreateRes.err e).code = 400) ∧
    (∀ (now rand : Nat) (pfx s m p a b : Str) (r : SavedImage),
      dataUriMatch s = some (m, p) →
      saveBase64Image now rand pfx s = Except.ok r →
      m = a ++ '/' :: b → '/' ∉ a → '/' ∉ b → r.extension = b) := by
  refine ⟨saveBase64Image_error_iff, saveBase64Image_error_msg, ?_, ?_⟩
  · intro reports sub newId createdAt env hv hbad
    unfold createReport
    rw [hv]
    cases hph : savePhotos env 0 (photosOf sub) with
    | error e => exact ⟨e, rfl, rfl⟩
    | ok imgs =>
      have hall := savePhotos_all_pattern env 0 (photosOf sub) imgs hph
      cases hos : saveBase64Image (env (photosOf sub).length).1 (env (photosOf sub).length).2
          ownerSignPfxS (sub.ownerSignature.getD []) with
      | error e => exact ⟨e, rfl, rfl⟩
      | ok oimg =>
        have hop := saveBase64Image_ok_pattern _ _ _ _ _ hos
        cases hts : saveBase64Image (env ((photosOf sub).length + 1)).1
            (env ((photosOf sub).length + 1)).2
            techSignPfxS (sub.technicianSignature.getD []) with
        | error e => exact ⟨e, rfl, rfl⟩
        | ok timg =>
          exfalso
          rcases hbad with ⟨ph, hmem, hnp⟩ | hnp | hnp
          · exact hnp (hall ph hmem)
          · exact hnp hop
          · exact hnp (saveBase64Image_ok_pattern _ _ _ _ _ hts)
  · intro now rand pfx s m p a b r hm h hab hna hnb
    obtain ⟨-, -, hext, -, -, -⟩ := saveBase64Image_fields now rand pfx s m p r hm h
    rw [hext, hab, jsSplit_two '/' a b hna hnb]
    rfl

/-- C4 witness: a non-matching input fails, and a matching `image/svg+xml`
input succeeds with extension `svg+xml` taken verbatim. -/
theorem decoder_malformed_iff_and_extension_verbatim_witness :
    (∃ e, saveBase64Image 0 0 (("img").toList) (("hello").toList) = Except.error e) ∧
    (∃ r, saveBase64Image 0 0 (("img").toList)
        (("data:image/svg+xml;base64,AA").toList) = Except.ok r ∧
      r.extension = ("svg+xml").toList) := by
  constructor
  · exact (decoder_malformed_iff_and_extension_verbatim.1 0 0 (("img").toList)
      (("hello").toList)).mpr (by rw [← dataUriMatch_isSome_iff]; decide)
  · have hm : dataUriMatch (("data:image/svg+xml;base64,AA").toList) =
        some ((("image/svg+xml").toList), (("AA").toList)) := by decide
    have hsv : saveBase64Image 0 0 (("img").toList)
        (("data:image/svg+xml;base64,AA").toList) =
        Except.ok
          { mimeType := ("image/svg+xml").toList
            extension := ("svg+xml").toList
            payload := ("AA").toList
            bytes := [0]
            filename := ("img-0-0.svg+xml").toList
            url := ("/uploads/img-0-0.svg+xml").toList } := by rfl
    exact ⟨_, hsv,
      decoder_malformed_iff_and_extension_verbatim.2.2.2 0 0 (("img").toList)
        (("data:image/svg+xml;base64,AA").toList) (("image/svg+xml").toList)
        (("AA").toList) (("image").toList) (("svg+xml").toList) _ hm hsv
        (by decide) (by decide) (by decide)⟩

/-- C8: for every input matching the data-URI pattern the decoder succeeds
whatever the payload contains: the (possibly garbage) decoded bytes are
written to the file instead of a decode error being raised. -/
theorem decoder_never_fails_on_payload :
    ∀ (now rand : Nat) (pfx s : Str), dataUriPattern s →
      ∃ r, saveBase64Image now rand pfx s = Except.ok r ∧
        r.bytes = jsBase64Decode r.payload :=
  saveBase64Image_ok_of_pattern

/-- C8 witness: a payload made of characters outside the base64 alphabet
still produces a success, with garbage (here empty) bytes. -/
theorem decoder_never_fails_on_payload_witness :
    ∃ r, saveBase64Image 0 0 photoPfxS (("data:image/png;base64,%%%%").toList) =
        Except.ok r ∧
      r.bytes = jsBase64Decode r.payload :=
  decoder_never_fails_on_payload 0 0 photoPfxS (("data:image/png;base64,%%%%").toList)
    ⟨("image/png").toList, ("%%%%").toList, by decide, by decide, by decide, by decide,
      by decide⟩

/-- C2 counterexample: with no stored record (`findReport` is `none`) and
status `archived`, the handler returns 400 (invalid status), not the 404
that the claim requires whenever the record is missing. -/
theorem update_missing_and_invalid_returns_400 :
    findReport ([] : ReportsState) (("x").toList) = none ∧
    updateStatus none [] (("x").toList) (some (("archived").toList)) =
      (PutRes.invalid invalidStatusS, []) ∧
    (updateStatus none [] (("x").toList) (some (("archived").toList))).1.code = 400 ∧
    (updateStatus none [] (("x").toList) (some (("archived").toList))).1.code ≠ 404 :=
  ⟨rfl, by decide, by decide, by decide⟩

/-- C2 (amended): the allowed-status check runs before the existence check:
an invalid status always yields 400 with no write (state unchanged), even
when the record is also missing; a valid status on a missing record yields
404, also with the state unchanged. -/
theorem update_status_error_cases :
    ∀ (ioErr : Option Str) (reports : ReportsState) (id : Str) (st : Option Str),
      ((st ≠ some pendingS ∧ st ≠ some attendedS) →
        updateStatus ioErr reports id st = (PutRes.invalid invalidStatusS, reports) ∧
        (PutRes.invalid invalidStatusS).code = 400) ∧
      (∀ s, st = some s → (s = pendingS ∨ s = attendedS) →
        findReport reports id = none →
        updateStatus ioErr reports id st = (PutRes.notFound notFoundMsgS, reports) ∧
        (PutRes.notFound notFoundMsgS).code = 404) := by
  intro ioErr reports id st
  constructor
  · rintro ⟨h1, h2⟩
    cases st with
    | none => exact ⟨rfl, rfl⟩
    | some s =>
      have hns : ¬ (s = pendingS ∨ s = attendedS) := by
        rintro (h | h) <;> subst h
        · exact h1 rfl
        · exact h2 rfl
      simp only [updateStatus]
      rw [if_neg hns]
      exact ⟨rfl, rfl⟩
  · intro s hst hv hfind
    subst hst
    simp only [updateStatus]
    rw [if_pos hv, hfind]
    exact ⟨rfl, rfl⟩

/-- C2 witness: concrete instances of both error branches. -/
theorem update_status_error_cases_witness :
    (updateStatus none [] (("x").toList) (some (("archived").toList)) =
      (PutRes.invalid invalidStatusS, []) ∧
      (PutRes.invalid invalidStatusS).code = 400) ∧
    (updateStatus none [] (("y").toList) (some pendingS) =
      (PutRes.notFound notFoundMsgS, []) ∧
      (PutRes.notFound notFoundMsgS).code = 404) :=
  ⟨(update_status_error_cases none [] (("x").toList)
      (some (("archived").toList))).1 (by decide),
   (update_status_error_cases none [] (("y").toList) (some pendingS)).2 pendingS rfl
      (Or.inl rfl) rfl⟩

/-- C5: a PUT with an allowed status on an existing report returns 200 with
the updated record; only `status` is overwritten — every other field of the
persisted record is unchanged — other records are untouched, and a
subsequent GET shows the record with the new status. -/
theorem update_status_success_frame :
    ∀ (reports : ReportsState) (id s : Str) (r : StoredReport),
      (s = pendingS ∨ s = attendedS) →
      findReport reports id = some r →
      updateStatus none reports id (some s) =
        (PutRes.ok { r with status := some s },
         setReport reports id { r with status := some s }) ∧
      (PutRes.ok { r with status := some s }).code = 200 ∧
      ({ r with status := some s }).status = some s ∧
      ({ r with status := some s }).id = r.id ∧
      ({ r with status := some s }).ownerName = r.ownerName ∧
      ({ r with status := some s }).phoneNumber = r.phoneNumber ∧
      ({ r with status := some s }).licensePlate = r.licensePlate ∧
      ({ r with status := some s }).faultDescription = r.faultDescription ∧
      ({ r with status := some s }).location = r.location ∧
      ({ r with status := some s }).photos = r.photos ∧
      ({ r with status := some s }).ownerSignature = r.ownerSignature ∧
      ({ r with status := some s }).technicianSignature = r.technicianSignature ∧
      ({ r with status := some s }).createdAt = r.createdAt ∧
      findReport (setReport reports id { r with status := some s }) id =
        some { r with status := some s } ∧
      (∀ k, k ≠ id →
        findReport (setReport reports id { r with status := some s }) k =
          findReport reports k) ∧
      (∃ out, listReports none (setReport reports id { r with status := some s }) =
          (GetRes.ok out, setReport reports id { r with status := some s }) ∧
        viewReport { r with status := some s } ∈ out ∧
        (viewReport { r with status := some s }).status = some s) := by
  intro reports id s r hs hfind
  refine ⟨?_, rfl, rfl, rfl, rfl, rfl, rfl, rfl, rfl, rfl, rfl, rfl, rfl, ?_, ?_, ?_⟩
  · simp only [updateStatus]
    rw [if_pos hs, hfind]
  · exact findReport_set_self reports id r _ hfind
  · intro k hk
    exact findReport_set_other reports id k _ hk
  · refine ⟨_, rfl, ?_, ?_⟩
    · have hmem := findReport_mem _ _ _
        (findReport_set_self reports id r { r with status := some s } hfind)
      exact List.mem_map_of_mem (fun kv => viewReport kv.2) hmem
    · show some (backfillStatus (some s)) = some s
      rw [backfill_valid s hs]

/-- C5 witness: updating a concrete pending report to `attended`. -/
theorem update_status_success_frame_witness :
    updateStatus none [((("r1").toList), rFix)] (("r1").toList) (some attendedS) =
      (PutRes.ok { rFix with status := some attendedS },
       setReport [((("r1").toList), rFix)] (("r1").toList)
         { rFix with status := some attendedS }) ∧
    ({ rFix with status := some attendedS }).ownerName = rFix.ownerName ∧
    ({ rFix with status := some attendedS }).createdAt = rFix.createdAt := by
  have h := update_status_success_frame [((("r1").toList), rFix)] (("r1").toList)
    attendedS rFix (Or.inr rfl) (by decide)
  exact ⟨h.1, h.2.2.2.2.1, h.2.2.2.2.2.2.2.2.2.2.2.2.1⟩

/-- C6 counterexample: an unexpected I/O failure during create (a failing
`mkdir`) is caught by the POST handler's single catch and surfaced as a 400
whose body is the raw error message — not as a 500 with a generic
message. -/
theorem create_io_error_returns_400_with_raw_message :
    createReport (some eaccesMsgS) [] subB (("id1").toList) (("2024").toList) envZ =
      (CreateRes.err eaccesMsgS, []) ∧
    (CreateRes.err eaccesMsgS).code = 400 ∧
    (CreateRes.err eaccesMsgS).code ≠ 500 :=
  ⟨rfl, rfl, by decide⟩

/-- C6 (amended): list and update-status surface an unexpected I/O error as
a 500 with a fixed generic message independent of the error's content;
create instead surfaces it as a 400 carrying the error's own message. -/
theorem io_error_surfacing :
    ∀ (m : Str) (reports : ReportsState) (id s : Str) (r : StoredReport)
      (sub : Submission) (newId createdAt : Str) (env : Nat → Nat × Nat),
      (listReports (some m) reports = (GetRes.err errReadingS, reports) ∧
        (GetRes.err errReadingS).code = 500) ∧
      ((s = pendingS ∨ s = attendedS) → findReport reports id = some r →
        updateStatus (some m) reports id (some s) =
          (PutRes.serverErr errUpdatingS, reports) ∧
        (PutRes.serverErr errUpdatingS).code = 500) ∧
      (validate sub = none →
        createReport (some m) reports sub newId createdAt env = (CreateRes.err m, reports) ∧
        (CreateRes.err m).code = 400 ∧ (CreateRes.err m).code ≠ 500) := by
  intro m reports id s r sub newId createdAt env
  refine ⟨⟨rfl, rfl⟩, ?_, ?_⟩
  · intro hs hfind
    simp only [updateStatus]
    rw [if_pos hs, hfind]
    exact ⟨rfl, rfl⟩
  · intro hv
    unfold createReport
    rw [hv]
    exact ⟨rfl, rfl, by simp [CreateRes.code]⟩

/-- C6 witness: the three operations under a concrete injected I/O error. -/
theorem io_error_surfacing_witness :
    (listReports (some eaccesMsgS) [((("r1").toList), rFix)] =
      (GetRes.err errReadingS, [((("r1").toList), rFix)])) ∧
    (updateStatus (some eaccesMsgS) [((("r1").toList), rFix)] (("r1").toList)
        (some attendedS) =
      (PutRes.serverErr errUpdatingS, [((("r1").toList), rFix)])) ∧
    (createReport (some eaccesMsgS) [((("r1").toList), rFix)] subB (("id2").toList)
        (("2024").toList) envZ =
      (CreateRes.err eaccesMsgS, [((("r1").toList), rFix)])) := by
  have h := io_error_surfacing eaccesMsgS [((("r1").toList), rFix)] (("r1").toList)
    attendedS rFix subB (("id2").toList) (("2024").toList) envZ
  exact ⟨h.1.1, (h.2.1 (Or.inr rfl) (by decide)).1, (h.2.2 (by decide)).1⟩

theorem spec_false_fails {b c : Bool} (hiff : b = false ↔ c = true) (hc : c = false) :
    b = true := by
  cases hb : b
  · rw [hiff.mp hb] at hc
    cases hc
  · rfl

theorem spec_true_not_fails {b c : Bool} (hiff : b = false ↔ c = true) (hc : c = true) :
    ¬ (b = true) := by
  rw [hiff.mpr hc]
  simp

/-- C3: POST validation enforces exactly the spec's required-field rules
(the iff with `specValidSubmission`), short-circuits in source order with a
distinct message naming each field, and a failing submission yields 400 with
the reports directory unchanged (no record created). -/
theorem validation_rules_short_circuit :
    (∀ sub : Submission, validate sub = none ↔ specValidSubmission sub = true) ∧
    (∀ sub : Submission,
      (specFieldRule sub.ownerName 2 = false → validate sub = some ownerNameErrS) ∧
      (specFieldRule sub.ownerName 2 = true → specFieldRule sub.phoneNumber 1 = false →
        validate sub = some phoneErrS) ∧
      (specFieldRule sub.ownerName 2 = true → specFieldRule sub.phoneNumber 1 = true →
        specFieldRule sub.licensePlate 3 = false → validate sub = some plateErrS) ∧
      (specFieldRule sub.ownerName 2 = true → specFieldRule sub.phoneNumber 1 = true →
        specFieldRule sub.licensePlate 3 = true →
        specFieldRule sub.faultDescription 10 = false → validate sub = some faultErrS) ∧
      (specFieldRule sub.ownerName 2 = true → specFieldRule sub.phoneNumber 1 = true →
        specFieldRule sub.licensePlate 3 = true →
        specFieldRule sub.faultDescription 10 = true →
        specFieldRule sub.ownerSignature 1 = false → validate sub = some ownerSigErrS) ∧
      (specFieldRule sub.ownerName 2 = true → specFieldRule sub.phoneNumber 1 = true →
        specFieldRule sub.licensePlate 3 = true →
        specFieldRule sub.faultDescription 10 = true →
        specFieldRule sub.ownerSignature 1 = true →
        specFieldRule sub.technicianSignature 1 = false →
        validate sub = some techSigErrS)) ∧
    List.Pairwise (fun a b => a ≠ b)
      [ownerNameErrS, phoneErrS, plateErrS, faultErrS, ownerSigErrS, techSigErrS] ∧
    (∀ (ioErr : Option Str) (reports : ReportsState) (sub : Submission)
        (newId createdAt : Str) (env : Nat → Nat × Nat) (e : Str),
      validate sub = some e →
      createReport ioErr reports sub newId createdAt env = (CreateRes.err e, reports) ∧
      (CreateRes.err e).code = 400) := by
  refine ⟨validate_eq_none_iff, ?_, by decide, ?_⟩
  · intro sub
    refine ⟨?_, ?_, ?_, ?_, ?_, ?_⟩
    · intro h1
      have hf := spec_false_fails (failsOwnerName_iff sub.ownerName) h1
      unfold validate
      rw [if_pos hf]
    · intro h1 h2
      have hn1 := spec_true_not_fails (failsOwnerName_iff sub.ownerName) h1
      have hf2 := spec_false_fails (failsPhoneNumber_iff sub.phoneNumber) h2
      unfold validate
      rw [if_neg hn1, if_pos hf2]
    · intro h1 h2 h3
      have hn1 := spec_true_not_fails (failsOwnerName_iff sub.ownerName) h1
      have hn2 := spec_true_not_fails (failsPhoneNumber_iff sub.phoneNumber) h2
      have hf3 := spec_false_fails (failsLicensePlate_iff sub.licensePlate) h3
      unfold validate
      rw [if_neg hn1, if_neg hn2, if_pos hf3]
    · intro h1 h2 h3 h4
      have hn1 := spec_true_not_fails (failsOwnerName_iff sub.ownerName) h1
      have hn2 := spec_true_not_fails (failsPhoneNumber_iff sub.phoneNumber) h2
      have hn3 := spec_true_not_fails (failsLicensePlate_iff sub.licensePlate) h3
      have hf4 := spec_false_fails (failsFaultDescription_iff sub.faultDescription) h4
      unfold validate
      rw [if_neg hn1, if_neg hn2, if_neg hn3, if_pos hf4]
    · intro h1 h2 h3 h4 h5
      have hn1 := spec_true_not_fails (failsOwnerName_iff sub.ownerName) h1
      have hn2 := spec_true_not_fails (failsPhoneNumber_iff sub.phoneNumber) h2
      have hn3 := spec_true_not_fails (failsLicensePlate_iff sub.licensePlate) h3
      have hn4 := spec_true_not_fails (failsFaultDescription_iff sub.faultDescription) h4
      have hf5 := spec_false_fails (failsOwnerSignature_iff sub.ownerSignature) h5
      unfold validate
      rw [if_neg hn1, if_neg hn2, if_neg hn3, if_neg hn4, if_pos hf5]
    · intro h1 h2 h3 h4 h5 h6
      have hn1 := spec_true_not_fails (failsOwnerName_iff sub.ownerName) h1
      have hn2 := spec_true_not_fails (failsPhoneNumber_iff sub.phoneNumber) h2
      have hn3 := spec_true_not_fails (failsLicensePlate_iff sub.licensePlate) h3
      have hn4 := spec_true_not_fails (failsFaultDescription_iff sub.faultDescription) h4
      have hn5 := spec_true_not_fails (failsOwnerSignature_iff sub.ownerSignature) h5
      have hf6 := spec_false_fails
        (failsTechnicianSignature_iff sub.technicianSignature) h6
      unfold validate
      rw [if_neg hn1, if_neg hn2, if_neg hn3, if_neg hn4, if_neg hn5, if_pos hf6]
  · intro ioErr reports sub newId createdAt env e hv
    exact ⟨createReport_err_of_validate ioErr reports sub newId createdAt env e hv, rfl⟩

/-- C3 witness: a one-character owner name fails the first rule, returns
400, and creates no record. -/
theorem validation_rules_short_circuit_witness :
    validate { subA with ownerName := some (("A").toList) } = some ownerNameErrS ∧
    createReport none [] { subA with ownerName := some (("A").toList) }
      (("id1").toList) (("2024").toList) envZ = (CreateRes.err ownerNameErrS, []) ∧
    (CreateRes.err ownerNameErrS).code = 400 := by
  have h1 := (validation_rules_short_circuit.2.1
    { subA with ownerName := some (("A").toList) }).1 (by decide)
  have h2 := validation_rules_short_circuit.2.2.2 none []
    { subA with ownerName := some (("A").toList) } (("id1").toList) (("2024").toList)
    envZ ownerNameErrS h1
  exact ⟨h1, h2.1, h2.2⟩

/-- C10: any falsy location (absent, null, empty string, zero, false) is
stored as null in the created record; a truthy location is stored as
given. -/
theorem falsy_location_stored_null :
    ∀ (reports : ReportsState) (sub : Submission) (newId createdAt : Str)
      (env : Nat → Nat × Nat) (imgs : List SavedImage) (oimg timg : SavedImage),
      validate sub = none →
      savePhotos env 0 (photosOf sub) = Except.ok imgs →
      saveBase64Image (env (photosOf sub).length).1 (env (photosOf sub).length).2
        ownerSignPfxS (sub.ownerSignature.getD []) = Except.ok oimg →
      saveBase64Image (env ((photosOf sub).length + 1)).1
        (env ((photosOf sub).length + 1)).2
        techSignPfxS (sub.technicianSignature.getD []) = Except.ok timg →
      ∃ r0, createReport none reports sub newId createdAt env =
          (CreateRes.ok newId, reports ++ [(newId, r0)]) ∧
        r0.location = (if jsTruthy sub.location then sub.location else JSValue.null) ∧
        ((sub.location = JSValue.undef ∨ sub.location = JSValue.null ∨
          sub.location = JSValue.str [] ∨ sub.location = JSValue.num 0 ∨
          sub.location = JSValue.bool false) → r0.location = JSValue.null) ∧
        (jsTruthy sub.location = true → r0.location = sub.location) := by
  intro reports sub newId createdAt env imgs oimg timg hv hph ho ht
  refine ⟨mkReport sub newId createdAt imgs oimg timg,
    createReport_ok_eq reports sub newId createdAt env imgs oimg timg hv hph ho ht,
    rfl, ?_, ?_⟩
  · intro hl
    show (if jsTruthy sub.location then sub.location else JSValue.null) = JSValue.null
    rcases hl with h | h | h | h | h <;> rw [h] <;> decide
  · intro hl
    show (if jsTruthy sub.location then sub.location else JSValue.null) = sub.location
    rw [if_pos hl]

/-- C10 witness: a submission with `location = 0` stores `null`. -/
theorem falsy_location_stored_null_witness :
    ∃ r0, createReport none [] subB (("id3").toList) (("2024").toList) envZ =
        (CreateRes.ok (("id3").toList), [] ++ [((("id3").toList), r0)]) ∧
      r0.location = JSValue.null := by
  obtain ⟨r0, he, -, hnull, -⟩ := falsy_location_stored_null [] subB (("id3").toList)
    (("2024").toList) envZ [] oimgFix timgFix rfl rfl rfl rfl
  exact ⟨r0, he, hnull (Or.inr (Or.inr (Or.inr (Or.inl rfl))))⟩

/-- C1: a valid submission whose attachments all decode creates a fresh
record: 201 with the new identifier (hypothesised previously unseen), the
persisted record has status pending, createdAt stamped, all submitted text
fields, the signature references, and the photo references in submission
order; a subsequent GET includes the record. -/
theorem create_valid_submission_spec :
    ∀ (reports : ReportsState) (sub : Submission) (newId createdAt : Str)
      (env : Nat → Nat × Nat) (imgs : List SavedImage) (oimg timg : SavedImage),
      validate sub = none →
      findReport reports newId = none →
      savePhotos env 0 (photosOf sub) = Except.ok imgs →
      saveBase64Image (env (photosOf sub).length).1 (env (photosOf sub).length).2
        ownerSignPfxS (sub.ownerSignature.getD []) = Except.ok oimg →
      saveBase64Image (env ((photosOf sub).length + 1)).1
        (env ((photosOf sub).length + 1)).2
        techSignPfxS (sub.technicianSignature.getD []) = Except.ok timg →
      ∃ r0, createReport none reports sub newId createdAt env =
          (CreateRes.ok newId, reports ++ [(newId, r0)]) ∧
        (CreateRes.ok newId).code = 201 ∧
        findReport (reports ++ [(newId, r0)]) newId = some r0 ∧
        r0.id = newId ∧
        r0.status = some pendingS ∧
        r0.createdAt = createdAt ∧
        some r0.ownerName = sub.ownerName ∧
        some r0.phoneNumber = sub.phoneNumber ∧
        some r0.licensePlate = sub.licensePlate ∧
        some r0.faultDescription = sub.faultDescription ∧
        r0.ownerSignature = oimg.url ∧
        r0.technicianSignature = timg.url ∧
        r0.photos = imgs.map SavedImage.url ∧
        imgs.length = (photosOf sub).length ∧
        (∀ i (hj : i < (photosOf sub).length) (hi : i < imgs.length),
          saveBase64Image (env i).1 (env i).2 photoPfxS ((photosOf sub).get ⟨i, hj⟩) =
            Except.ok (imgs.get ⟨i, hi⟩)) ∧
        (∃ out, listReports none (reports ++ [(newId, r0)]) =
            (GetRes.ok out, reports ++ [(newId, r0)]) ∧
          ∃ v ∈ out, v.id = newId ∧ v.status = some pendingS ∧
            v.createdAt = createdAt) := by
  intro reports sub newId createdAt env imgs oimg timg hv hfresh hph ho ht
  obtain ⟨h1, h2, h3, h4, h5, h6⟩ := validate_none_isSome sub hv
  refine ⟨mkReport sub newId createdAt imgs oimg timg,
    createReport_ok_eq reports sub newId createdAt env imgs oimg timg hv hph ho ht,
    rfl, ?_, rfl, rfl, rfl, h1.symm, h2.symm, h3.symm, h4.symm, rfl, rfl, rfl,
    savePhotos_ok_length env 0 (photosOf sub) imgs hph, ?_, ?_⟩
  · rw [findReport_append_none reports _ newId hfresh]
    exact findReport_cons_self [] newId _
  · intro i hj hi
    have hg := savePhotos_get env 0 (photosOf sub) imgs hph i hj hi
    rwa [Nat.zero_add] at hg
  · refine ⟨_, rfl, viewReport (mkReport sub newId createdAt imgs oimg timg), ?_, rfl,
      ?_, rfl⟩
    · exact List.mem_map_of_mem (fun kv => viewReport kv.2)
        (List.mem_append_right reports (List.mem_singleton.mpr rfl))
    · rfl

/-- C1 witness: creating a concrete valid submission with one photo in an
empty store. -/
theorem create_valid_submission_spec_witness :
    ∃ r0, createReport none [] subA (("id9").toList) (("2024-05-05").toList) envZ =
        (CreateRes.ok (("id9").toList), [] ++ [((("id9").toList), r0)]) ∧
      findReport ([] ++ [((("id9").toList), r0)]) (("id9").toList) = some r0 ∧
      r0.status = some pendingS ∧
      r0.createdAt = ("2024-05-05").toList ∧
      r0.photos = [imgPhotoFix].map SavedImage.url := by
  obtain ⟨r0, he, -, hf, -, hst, hca, -, -, -, -, -, -, hph, -, -⟩ :=
    create_valid_submission_spec [] subA (("id9").toList) (("2024-05-05").toList) envZ
      [imgPhotoFix] oimgFix timgFix rfl rfl rfl rfl rfl
  exact ⟨r0, he, hf, hst, hca, hph⟩

/-- C7: every status observable through the API is pending or attended:
creation writes pending; GET leaves the directory unwritten and back-fills
pending for a record missing the field; update only returns and writes the
two allowed values; both mutating handlers preserve the directory
invariant. -/
theorem status_always_in_allowed_set :
    (∀ (sub : Submission) (newId createdAt : Str) (imgs : List SavedImage)
      (oimg timg : SavedImage),
      (mkReport sub newId createdAt imgs oimg timg).status = some pendingS) ∧
    (backfillStatus none = pendingS) ∧
    (∀ (ioErr : Option Str) (reports : ReportsState),
      (listReports ioErr reports).2 = reports) ∧
    (∀ reports : ReportsState, GoodState reports →
      ∀ out, (listReports none reports).1 = GetRes.ok out →
        ∀ v ∈ out, v.status = some pendingS ∨ v.status = some attendedS) ∧
    (∀ (ioErr : Option Str) (reports : ReportsState) (id : Str) (stv : Option Str),
      GoodState reports → GoodState (updateStatus ioErr reports id stv).2) ∧
    (∀ (ioErr : Option Str) (reports : ReportsState) (id : Str) (stv : Option Str)
      (r' : StoredReport), (updateStatus ioErr reports id stv).1 = PutRes.ok r' →
      r'.status = some pendingS ∨ r'.status = some attendedS) ∧
    (∀ (ioErr : Option Str) (reports : ReportsState) (sub : Submission)
      (newId createdAt : Str) (env : Nat → Nat × Nat),
      GoodState reports → GoodState (createReport ioErr reports sub newId createdAt env).2) := by
  refine ⟨fun _ _ _ _ _ _ => rfl, rfl, ?_, ?_, ?_, ?_, ?_⟩
  · intro ioErr reports
    cases ioErr <;> rfl
  · intro reports hg out hout v hv
    have h2 : GetRes.ok (reports.map (fun kv => viewReport kv.2)) = GetRes.ok out := hout
    have h3 : reports.map (fun kv => viewReport kv.2) = out := by injection h2
    subst h3
    obtain ⟨kv, hkv, hveq⟩ := List.mem_map.mp hv
    rw [← hveq]
    rcases backfillStatus_good kv.2.status (hg kv hkv) with h | h
    · left
      show some (backfillStatus kv.2.status) = some pendingS
      rw [h]
    · right
      show some (backfillStatus kv.2.status) = some attendedS
      rw [h]
  · intro ioErr reports id stv hg
    cases stv with
    | none => exact hg
    | some s =>
      by_cases hcond : s = pendingS ∨ s = attendedS
      · simp only [updateStatus]
        rw [if_pos hcond]
        cases hfind : findReport reports id with
        | none => exact hg
        | some r =>
          cases ioErr with
          | some m => exact hg
          | none =>
            intro kv hkv
            obtain ⟨kv0, hkv0, hmap⟩ := List.mem_map.mp hkv
            by_cases hk : kv0.1 = id
            · rw [if_pos hk] at hmap
              rw [← hmap]
              rcases hcond with h | h
              · exact Or.inr (Or.inl (by rw [h]))
              · exact Or.inr (Or.inr (by rw [h]))
            · rw [if_neg hk] at hmap
              rw [← hmap]
              exact hg kv0 hkv0
      · simp only [updateStatus]
        rw [if_neg hcond]
        exact hg
  · intro ioErr reports id stv r' hres
    cases stv with
    | none => simp [updateStatus] at hres
    | some s =>
      by_cases hcond : s = pendingS ∨ s = attendedS
      · simp only [updateStatus] at hres
        rw [if_pos hcond] at hres
        cases hfind : findReport reports id with
        | none =>
          rw [hfind] at hres
          simp at hres
        | some r =>
          rw [hfind] at hres
          cases ioErr with
          | some m => simp at hres
          | none =>
            have hok : PutRes.ok { r with status := some s } = PutRes.ok r' := hres
            have heq : { r with status := some s } = r' := by injection hok
            rw [← heq]
            rcases hcond with h | h
            · exact Or.inl (by rw [h])
            · exact Or.inr (by rw [h])
      · simp only [updateStatus] at hres
        rw [if_neg hcond] at hres
        simp at hres
  · intro ioErr reports sub newId createdAt env hg
    unfold createReport
    cases hv : validate sub with
    | some e => exact hg
    | none =>
      cases ioErr with
      | some m => exact hg
      | none =>
        cases hph : savePhotos env 0 (photosOf sub) with
        | error e => exact hg
        | ok imgs =>
          cases ho : saveBase64Image (env (photosOf sub).length).1
              (env (photosOf sub).length).2 ownerSignPfxS
              (sub.ownerSignature.getD []) with
          | error e => exact hg
          | ok oimg =>
            cases ht : saveBase64Image (env ((photosOf sub).length + 1)).1
                (env ((photosOf sub).length + 1)).2 techSignPfxS
                (sub.technicianSignature.getD []) with
            | error e => exact hg
            | ok timg =>
              intro kv hkv
              rcases List.mem_append.mp hkv with hmem | hmem
              · exact hg kv hmem
              · rw [List.mem_singleton.mp hmem]
                exact Or.inr (Or.inl rfl)

/-- C7 witness: updating a concrete pending record keeps the directory
invariant. -/
theorem status_always_in_allowed_set_witness :
    GoodState ((updateStatus none [((("r1").toList), rFix)] (("r1").toList)
      (some attendedS)).2) :=
  status_always_in_allowed_set.2.2.2.2.1 none [((("r1").toList), rFix)]
    (("r1").toList) (some attendedS)
    (fun kv hkv => by
      rw [List.mem_singleton.mp hkv]
      exact Or.inr (Or.inl rfl))

end FaultAPI
